import Mathlib

/-!
Verification development for the dicom2stl repository.

The file shallowly embeds the repository's own logic — the incremental DICOM
series organizer (`src/dcm_organizer.py`) and the skull-extraction step
(`src/skull_extraction.py`) — and proves theorems about it.  External
libraries (pydicom, trimesh, the OS filesystem, the json ledger file) are
modelled as explicit inputs / explicit state, exactly at the granularity the
Python code uses them.
-/

namespace Dicom2Stl

/-- The DICOM metadata fields `dcm_organizer.py` reads from a file via
`pydicom.dcmread` (`ds.Modality`, `ds.BodyPartExamined`,
`ds.SeriesInstanceUID`). -/
structure Dataset where
  Modality : String
  BodyPartExamined : String
  SeriesInstanceUID : String
deriving DecidableEq

/-- Abstract state of the directories the organizer touches:
`srcFiles` is the listing of the source directory (`os.listdir(SRC)`),
`outDirs` the set of existing output directories (`os.path.exists`),
`moved` the files that sit under the output tree, as
(destination directory, filename) pairs (`shutil.move(src_path, out_path)`
with `out_path = out_dir + '/' + dcm`).  Directory creation and the move
itself are modelled as always succeeding; the only per-file failure mode
in the model is the metadata read. -/
structure FS where
  srcFiles : List String
  outDirs : List String
  moved : List (String × String)
deriving DecidableEq

/-- State of the per-file loop in `organizer` (src/dcm_organizer.py lines
27-44): the filesystem plus the `counter`, `error_count` and `UID_count`
tallies.  `reads` additionally records, in order, the filenames passed to
`pydicom.dcmread` — a pure observation used to state that ledger-excluded
files are never read. -/
structure RunState where
  fs : FS
  counter : Nat
  error_count : Nat
  UID_count : Nat
  reads : List String
deriving DecidableEq

/-- One iteration of the `for i, dcm in ... enumerate(input_dcms)` loop of
`organizer` (src/dcm_organizer.py lines 27-44).  `dcmread` models
`pydicom.dcmread(SRC + dcm)`: `none` is a raised exception (corrupt or
non-DICOM file), caught by the `except` clause which increments
`error_count` and continues.  On a metadata match the code does
`if not os.path.exists(out_dir): os.makedirs(out_dir); UID_count += 1`
followed by `shutil.move(src_path, out_path)` and `counter += 1`; the two
branches below are that conditional with the move and counter update
written into each arm. -/
def processFile (dcmread : String → Option Dataset) (OUT MODALITY BODYPART : String)
    (st : RunState) (dcm : String) : RunState :=
  match dcmread dcm with
  | none =>
    { st with error_count := st.error_count + 1, reads := st.reads ++ [dcm] }
  | some ds =>
    if ds.Modality = MODALITY ∧ ds.BodyPartExamined = BODYPART then
      if OUT ++ ds.SeriesInstanceUID ∈ st.fs.outDirs then
        { st with
          fs := { st.fs with
                    srcFiles := st.fs.srcFiles.erase dcm,
                    moved := st.fs.moved ++ [(OUT ++ ds.SeriesInstanceUID, dcm)] },
          counter := st.counter + 1,
          reads := st.reads ++ [dcm] }
      else
        { st with
          fs := { st.fs with
                    srcFiles := st.fs.srcFiles.erase dcm,
                    outDirs := st.fs.outDirs ++ [OUT ++ ds.SeriesInstanceUID],
                    moved := st.fs.moved ++ [(OUT ++ ds.SeriesInstanceUID, dcm)] },
          counter := st.counter + 1,
          UID_count := st.UID_count + 1,
          reads := st.reads ++ [dcm] }
    else { st with reads := st.reads ++ [dcm] }

/-- What `organizer` returns (src/dcm_organizer.py line 46):
`return input_dcms, counter, error_count, totalFiles, UID_count`, where
`input_dcms` is the ledger-filtered candidate list, plus the final
filesystem state and the observed `dcmread` calls. -/
structure OrganizerResult where
  input_dcms : List String
  counter : Nat
  error_count : Nat
  totalFiles : Nat
  UID_count : Nat
  fs : FS
  reads : List String
deriving DecidableEq

/-- The `organizer` function of src/dcm_organizer.py (lines 14-46):
list the source directory, count `totalFiles`, drop filenames already in
the ledger (`input_dcms = [x for x in input_dcms if x not in
processed_dcms]`, with `processed_dcms` a Python set), then run the
per-file loop.  `SRC` itself only occurs inside the path handed to
`pydicom.dcmread` and `shutil.move` and is absorbed into `dcmread` and the
abstract `FS`; the unused `LOG_FNAME` parameter is dropped. -/
def organizer (dcmread : String → Option Dataset) (OUT MODALITY BODYPART : String)
    (processed_dcms : Finset String) (fs0 : FS) : OrganizerResult :=
  let input_dcms := fs0.srcFiles
  let totalFiles := input_dcms.length
  let input_dcms := input_dcms.filter fun x => decide (x ∉ processed_dcms)
  let final := input_dcms.foldl (processFile dcmread OUT MODALITY BODYPART)
    { fs := fs0, counter := 0, error_count := 0, UID_count := 0, reads := [] }
  { input_dcms := input_dcms, counter := final.counter,
    error_count := final.error_count, totalFiles := totalFiles,
    UID_count := final.UID_count, fs := final.fs, reads := final.reads }

/-! ### The processed-file ledger

`main` (src/dcm_organizer.py lines 82-86) loads the ledger with
`try: processed_dcms = set(json.load(open(LOG_FNAME)))
 except: processed_dcms = set()`
and saves it (lines 125-126 and 134-136) with
`json.dump(list(processed_dcms), infile)`. -/

/-- State of the ledger's backing store: the file may be absent, present
but unreadable/malformed json, or a readable json list of filenames. -/
inductive LedgerStore where
  | missing : LedgerStore
  | corrupt : LedgerStore
  | valid : List String → LedgerStore
deriving DecidableEq

/-- The ledger load of src/dcm_organizer.py lines 82-86: `json.load` into a
`set`; the bare `except` turns any failure (missing file, bad json) into
the empty set, so the function is total and surfaces no error. -/
def loadLedger : LedgerStore → Finset String
  | .missing => ∅
  | .corrupt => ∅
  | .valid ns => ns.toFinset

/-- The ledger save of src/dcm_organizer.py lines 134-136:
`json.dump(list(processed_dcms), infile)` overwrites the store with the
elements of the set listed in some order; `list()` of a Python set yields
an unspecified order, rendered here as the sorted listing (the spec makes
element order in the backing file not significant). -/
def saveLedger (processed_dcms : Finset String) : LedgerStore :=
  .valid (processed_dcms.sort (· ≤ ·))

/-- The set of filenames a backing store persists: the listed names for a
readable store, and the empty set for an absent or malformed one (the code
treats both as "no prior history"). -/
def persistedNames : LedgerStore → Finset String
  | .missing => ∅
  | .corrupt => ∅
  | .valid ns => ns.toFinset

/-! ### Command-line parsing (`getopt`) and the pre-parse phase of `main`

`main` calls `getopt.getopt(argv, "hi:o:s:b:m:",
["ifolder=","ofolder=","subdirs","bodypart=","modality="])` (line 90) and
on `GetoptError` prints the usage text and calls `sys.exit()` — which
raises `SystemExit(None)`, i.e. exit status 0.  Before that call `main`
has already created the `logs/` directory when absent (lines 60-62) and
opened the per-run log file for writing via
`logging.basicConfig(filename=run_log_name, filemode='w')` (lines 66-70).
The model below reproduces the CPython `getopt` module's algorithm for
this fixed option table. -/

/-- Lookup in the short option string "hi:o:s:b:m:": `some b` means the
option exists and `b` tells whether it takes an argument; `none` is
`GetoptError` ("option not recognized"). -/
def short_has_arg (c : Char) : Option Bool :=
  if c = 'h' then some false
  else if c = 'i' ∨ c = 'o' ∨ c = 's' ∨ c = 'b' ∨ c = 'm' then some true
  else none

/-- The long-option table `["ifolder=","ofolder=","subdirs","bodypart=",
"modality="]`; a trailing `=` marks an option that takes an argument. -/
def longopts : List String := ["ifolder=", "ofolder=", "subdirs", "bodypart=", "modality="]

/-- CPython `getopt.long_has_args` for this table, working on character
lists (all list operations here are structurally recursive): match the
option name against the table by prefix; exact match wins, then
unique-prefix match; no match or an ambiguous one is a `GetoptError`. -/
def long_has_args (opt : List Char) : Except String (Bool × List Char) :=
  let possibilities := (longopts.map String.data).filter fun o => opt.isPrefixOf o
  if possibilities = [] then .error ("option --" ++ String.mk opt ++ " not recognized")
  else if opt ∈ possibilities then .ok (false, opt)
  else if (opt ++ ['=']) ∈ possibilities then .ok (true, opt)
  else
    match possibilities with
    | [unique_match] =>
      if unique_match.getLast? = some '=' then .ok (true, unique_match.dropLast)
      else .ok (false, unique_match)
    | _ => .error ("option --" ++ String.mk opt ++ " not a unique prefix")

/-- CPython `getopt.do_longs` for one `--opt` or `--opt=value` token
(`opt` is the token without its leading `--`, as characters): split at
the first `=` (`opt.find('=')`), resolve the name against the table, and
consume the next argument when a value is required but not attached. -/
def do_longs (opts : List (String × String)) (opt : List Char) (args : List String) :
    Except String (List (String × String) × List String) :=
  let name := opt.takeWhile fun c => c != '='
  let optarg : Option (List Char) :=
    match opt.dropWhile fun c => c != '=' with
    | [] => none
    | _ :: v => some v
  match long_has_args name with
  | .error e => .error e
  | .ok (true, resolved) =>
    match optarg with
    | some a => .ok (opts ++ [("--" ++ String.mk resolved, String.mk a)], args)
    | none =>
      match args with
      | [] => .error ("option --" ++ String.mk name ++ " requires argument")
      | a :: rest => .ok (opts ++ [("--" ++ String.mk resolved, a)], rest)
  | .ok (false, resolved) =>
    match optarg with
    | some _ => .error ("option --" ++ String.mk name ++ " must not have an argument")
    | none => .ok (opts ++ [("--" ++ String.mk resolved, "")], args)

/-- CPython `getopt.do_shorts` for one `-abc` token: process the
characters left to right; an option that needs an argument takes the rest
of the token when non-empty, otherwise the next argument. -/
def do_shorts (opts : List (String × String)) (optstring : List Char) (args : List String) :
    Except String (List (String × String) × List String) :=
  match optstring with
  | [] => .ok (opts, args)
  | opt :: rest =>
    match short_has_arg opt with
    | none => .error ("option -" ++ String.mk [opt] ++ " not recognized")
    | some true =>
      match rest with
      | [] =>
        match args with
        | [] => .error ("option -" ++ String.mk [opt] ++ " requires argument")
        | a :: args' => .ok (opts ++ [("-" ++ String.mk [opt], a)], args')
      | _ :: _ => .ok (opts ++ [("-" ++ String.mk [opt], String.mk rest)], args)
    | some false => do_shorts (opts ++ [("-" ++ String.mk [opt], "")]) rest args

/-- The `while args and args[0].startswith('-') and args[0] != '-':` loop
of CPython `getopt.getopt`, analysing each token by its characters: a
token that does not look like `-...` (or is exactly `-`) stops parsing
and is left in place, `--` is consumed and stops parsing, `--xyz` goes to
`do_longs` and `-xyz` to `do_shorts`.  Each iteration consumes at least
the leading token of `args`, so any `fuel ≥ args.length` suffices; the
fuel-exhausted branch is unreachable for the fuel `getopt` passes. -/
def getoptLoop (fuel : Nat) (opts : List (String × String)) (args : List String) :
    Except String (List (String × String) × List String) :=
  match fuel with
  | 0 => .ok (opts, args)
  | fuel + 1 =>
    match args with
    | [] => .ok (opts, [])
    | a :: rest =>
      match a.data with
      | [] => .ok (opts, a :: rest)
      | c :: cs =>
        if c = '-' then
          match cs with
          | [] => .ok (opts, a :: rest)
          | c2 :: cs2 =>
            if c2 = '-' then
              match cs2 with
              | [] => .ok (opts, rest)
              | _ :: _ =>
                match do_longs opts cs2 rest with
                | .error e => .error e
                | .ok (opts', args') => getoptLoop fuel opts' args'
            else
              match do_shorts opts (c2 :: cs2) rest with
              | .error e => .error e
              | .ok (opts', args') => getoptLoop fuel opts' args'
        else .ok (opts, a :: rest)

/-- `getopt.getopt(argv, "hi:o:s:b:m:", ["ifolder=", "ofolder=",
"subdirs", "bodypart=", "modality="])` as called on line 90 of
src/dcm_organizer.py: `.error` is a raised `GetoptError`. -/
def getopt (args : List String) : Except String (List (String × String) × List String) :=
  getoptLoop (args.length + 1) [] args

/-- The usage string printed by `main` (src/dcm_organizer.py line 92). -/
def usage : String :=
  "USAGE: dcm_organizer.py -i <input_dicom_folder> -o <output_folder> -s <files are in subdirs> -b <BodyPart> -m <Modality>"

/-- Filesystem effects visible to `main` before and during argument
parsing: which directories exist, which the run created, and which files
it opened for writing. -/
structure MainWorld where
  existingDirs : List String
  createdDirs : List String
  writtenFiles : List String
deriving DecidableEq

/-- Outcome of the pre-parse phase of `main`: `exitCode = some c` means the
process exited with status `c` during parsing; `none` means parsing
succeeded and `main` continues (beyond this model). -/
structure ParseOutcome where
  exitCode : Option Nat
  printed : List String
  world : MainWorld
deriving DecidableEq

/-- `main` of src/dcm_organizer.py up to and including argument parsing
(lines 48-94): create `cwd + '/logs/'` when absent (lines 60-62), open the
per-run log file `logs/log_dcm-organizer_<timestamp>.log` for writing
(`logging.basicConfig(..., filename=run_log_name, filemode='w')`, lines
66-70), read the ledger (a read, not modelled as a world effect), then
call `getopt`; on `GetoptError` print the usage text and `sys.exit()` —
no argument, hence exit status 0. -/
def mainParsePhase (cwd timestamp : String) (argv : List String) (w : MainWorld) :
    ParseOutcome :=
  let logs_dir := cwd ++ "/logs/"
  let w1 := if logs_dir ∈ w.existingDirs then w
    else { w with existingDirs := w.existingDirs ++ [logs_dir],
                  createdDirs := w.createdDirs ++ [logs_dir] }
  let run_log_name := logs_dir ++ "log_dcm-organizer_" ++ timestamp ++ ".log"
  let w2 := { w1 with writtenFiles := w1.writtenFiles ++ [run_log_name] }
  match getopt argv with
  | .error _ => { exitCode := some 0, printed := [usage], world := w2 }
  | .ok _ => { exitCode := none, printed := [], world := w2 }

/-! ### Skull extraction (src/skull_extraction.py)

`skull_extraction(fname, stl_file, outputfolder)` loads the mesh, calls
`mesh.split(only_watertight=False)` (the trimesh library, an external
collaborator — the model takes its output list as input), picks
`np.argmax([x.faces.shape[0] for x in splitted_mesh])` and exports that
component to `outputfolder + '/' + stl_file`. -/

/-- A connected mesh component as returned by `trimesh`'s split: all the
code looks at is its face array (`x.faces.shape[0]` = number of faces). -/
structure TMesh where
  faces : List (Nat × Nat × Nat)
deriving DecidableEq

/-- `np.argmax`: index and value of the first maximum of a list; `none`
for the empty list (where numpy raises). -/
def np_argmax : List Nat → Option (Nat × Nat)
  | [] => none
  | x :: xs =>
    match np_argmax xs with
    | none => some (0, x)
    | some (j, v) => if v ≤ x then some (0, x) else some (j + 1, v)

/-- `skull_extraction` of src/skull_extraction.py (lines 22-29), with the
library's `mesh.split(only_watertight=False)` result passed in as
`splitted_mesh`: select the component at the argmax of the face counts and
export it to `outputfolder + '/' + stl_file`.  `none` models the raised
exception when the split is empty. -/
def skull_extraction (splitted_mesh : List TMesh) (stl_file outputfolder : String) :
    Option (String × TMesh) :=
  match np_argmax (splitted_mesh.map fun x => x.faces.length) with
  | none => none
  | some (skull_position, _) =>
    (splitted_mesh.get? skull_position).map
      fun skull => (outputfolder ++ "/" ++ stl_file, skull)

/-! ### Lemmas about one iteration of the organizer loop -/

section OrganizerLemmas

variable (dcmread : String → Option Dataset) (OUT MODALITY BODYPART : String)

/-- Every iteration calls `pydicom.dcmread` on exactly its own filename. -/
theorem processFile_reads (st : RunState) (d : String) :
    (processFile dcmread OUT MODALITY BODYPART st d).reads = st.reads ++ [d] := by
  rcases hdd : dcmread d with _ | ds
  · simp [processFile, hdd]
  · by_cases h1 : ds.Modality = MODALITY ∧ ds.BodyPartExamined = BODYPART
    · by_cases h2 : OUT ++ ds.SeriesInstanceUID ∈ st.fs.outDirs
      · simp [processFile, hdd, h1, h2]
      · simp [processFile, hdd, h1, h2]
    · simp [processFile, hdd, h1]

/-- An iteration only ever removes entries from the source listing. -/
theorem processFile_srcFiles_sub (st : RunState) (d x : String)
    (hx : x ∈ (processFile dcmread OUT MODALITY BODYPART st d).fs.srcFiles) :
    x ∈ st.fs.srcFiles := by
  rcases hdd : dcmread d with _ | ds
  · simpa [processFile, hdd] using hx
  · by_cases h1 : ds.Modality = MODALITY ∧ ds.BodyPartExamined = BODYPART
    · by_cases h2 : OUT ++ ds.SeriesInstanceUID ∈ st.fs.outDirs
      · simp only [processFile, hdd, if_pos h1, if_pos h2] at hx
        exact List.mem_of_mem_erase hx
      · simp only [processFile, hdd, if_pos h1, if_neg h2] at hx
        exact List.mem_of_mem_erase hx
    · simpa [processFile, hdd, h1] using hx

/-- A file different from the one being processed stays in the source
directory. -/
theorem processFile_srcFiles_other (st : RunState) (d x : String) (hne : x ≠ d)
    (hx : x ∈ st.fs.srcFiles) :
    x ∈ (processFile dcmread OUT MODALITY BODYPART st d).fs.srcFiles := by
  rcases hdd : dcmread d with _ | ds
  · simpa [processFile, hdd] using hx
  · by_cases h1 : ds.Modality = MODALITY ∧ ds.BodyPartExamined = BODYPART
    · by_cases h2 : OUT ++ ds.SeriesInstanceUID ∈ st.fs.outDirs
      · simp only [processFile, hdd, if_pos h1, if_pos h2]
        exact (List.mem_erase_of_ne hne).mpr hx
      · simp only [processFile, hdd, if_pos h1, if_neg h2]
        exact (List.mem_erase_of_ne hne).mpr hx
    · simpa [processFile, hdd, h1] using hx

/-- A file whose metadata does not match the filters stays in the source
directory, whichever file the iteration processes. -/
theorem processFile_srcFiles_nonmatching (st : RunState) (d x : String)
    (hnm : ∀ m, dcmread x = some m →
      ¬(m.Modality = MODALITY ∧ m.BodyPartExamined = BODYPART))
    (hx : x ∈ st.fs.srcFiles) :
    x ∈ (processFile dcmread OUT MODALITY BODYPART st d).fs.srcFiles := by
  by_cases hne : x = d
  · subst hne
    rcases hdd : dcmread x with _ | ds
    · simpa [processFile, hdd] using hx
    · have h1 : ¬(ds.Modality = MODALITY ∧ ds.BodyPartExamined = BODYPART) := hnm ds hdd
      simpa [processFile, hdd, h1] using hx
  · exact processFile_srcFiles_other dcmread OUT MODALITY BODYPART st d x hne hx

/-- Files already under the output tree stay there. -/
theorem processFile_moved_mono (st : RunState) (d : String) (p : String × String)
    (hp : p ∈ st.fs.moved) :
    p ∈ (processFile dcmread OUT MODALITY BODYPART st d).fs.moved := by
  rcases hdd : dcmread d with _ | ds
  · simpa [processFile, hdd] using hp
  · by_cases h1 : ds.Modality = MODALITY ∧ ds.BodyPartExamined = BODYPART
    · by_cases h2 : OUT ++ ds.SeriesInstanceUID ∈ st.fs.outDirs
      · simp only [processFile, hdd, if_pos h1, if_pos h2]
        exact List.mem_append.mpr (Or.inl hp)
      · simp only [processFile, hdd, if_pos h1, if_neg h2]
        exact List.mem_append.mpr (Or.inl hp)
    · simpa [processFile, hdd, h1] using hp

/-- Existing output directories persist across an iteration. -/
theorem processFile_outDirs_mono (st : RunState) (d dir : String)
    (hdir : dir ∈ st.fs.outDirs) :
    dir ∈ (processFile dcmread OUT MODALITY BODYPART st d).fs.outDirs := by
  rcases hdd : dcmread d with _ | ds
  · simpa [processFile, hdd] using hdir
  · by_cases h1 : ds.Modality = MODALITY ∧ ds.BodyPartExamined = BODYPART
    · by_cases h2 : OUT ++ ds.SeriesInstanceUID ∈ st.fs.outDirs
      · simpa [processFile, hdd, h1, h2] using hdir
      · simp only [processFile, hdd, if_pos h1, if_neg h2]
        exact List.mem_append.mpr (Or.inl hdir)
    · simpa [processFile, hdd, h1] using hdir

/-- Any file the iteration newly places under the output tree is the
iteration's own file, its destination directory exists afterwards, and the
destination is `OUT ++ SeriesInstanceUID` for its (filter-matching)
metadata. -/
theorem processFile_moved_inv (st : RunState) (d : String) (p : String × String)
    (hp : p ∈ (processFile dcmread OUT MODALITY BODYPART st d).fs.moved) :
    p ∈ st.fs.moved ∨
      (p.2 = d ∧ p.1 ∈ (processFile dcmread OUT MODALITY BODYPART st d).fs.outDirs ∧
        ∃ m, dcmread d = some m ∧ m.Modality = MODALITY ∧
          m.BodyPartExamined = BODYPART ∧ p.1 = OUT ++ m.SeriesInstanceUID) := by
  rcases hdd : dcmread d with _ | ds
  · exact Or.inl (by simpa [processFile, hdd] using hp)
  · by_cases h1 : ds.Modality = MODALITY ∧ ds.BodyPartExamined = BODYPART
    · by_cases h2 : OUT ++ ds.SeriesInstanceUID ∈ st.fs.outDirs
      · simp only [processFile, hdd, if_pos h1, if_pos h2] at hp ⊢
        rcases List.mem_append.mp hp with h | h
        · exact Or.inl h
        · have hpp : p = (OUT ++ ds.SeriesInstanceUID, d) := by simpa using h
          subst hpp
          exact Or.inr ⟨rfl, h2, ds, rfl, h1.1, h1.2, rfl⟩
      · simp only [processFile, hdd, if_pos h1, if_neg h2] at hp ⊢
        rcases List.mem_append.mp hp with h | h
        · exact Or.inl h
        · have hpp : p = (OUT ++ ds.SeriesInstanceUID, d) := by simpa using h
          subst hpp
          refine Or.inr ⟨rfl, ?_, ds, rfl, h1.1, h1.2, rfl⟩
          exact List.mem_append.mpr (Or.inr (by simp))
    · exact Or.inl (by simpa [processFile, hdd, h1] using hp)

/-- Processing a filter-matching file places it under
`OUT ++ SeriesInstanceUID` with its filename unchanged. -/
theorem processFile_moves_matching (st : RunState) (f : String) (m : Dataset)
    (hm : dcmread f = some m) (h1 : m.Modality = MODALITY)
    (h2 : m.BodyPartExamined = BODYPART) :
    (OUT ++ m.SeriesInstanceUID, f) ∈
      (processFile dcmread OUT MODALITY BODYPART st f).fs.moved := by
  have h12 : m.Modality = MODALITY ∧ m.BodyPartExamined = BODYPART := ⟨h1, h2⟩
  by_cases h3 : OUT ++ m.SeriesInstanceUID ∈ st.fs.outDirs
  · simp only [processFile, hm, if_pos h12, if_pos h3]
    exact List.mem_append.mpr (Or.inr (by simp))
  · simp only [processFile, hm, if_pos h12, if_neg h3]
    exact List.mem_append.mpr (Or.inr (by simp))

/-- After processing a filter-matching file its series directory exists:
it either existed before or the iteration just created it. -/
theorem processFile_dir_exists (st : RunState) (f : String) (m : Dataset)
    (hm : dcmread f = some m) (h1 : m.Modality = MODALITY)
    (h2 : m.BodyPartExamined = BODYPART) :
    OUT ++ m.SeriesInstanceUID ∈
      (processFile dcmread OUT MODALITY BODYPART st f).fs.outDirs := by
  have h12 : m.Modality = MODALITY ∧ m.BodyPartExamined = BODYPART := ⟨h1, h2⟩
  by_cases h3 : OUT ++ m.SeriesInstanceUID ∈ st.fs.outDirs
  · simp only [processFile, hm, if_pos h12, if_pos h3]
    exact h3
  · simp only [processFile, hm, if_pos h12, if_neg h3]
    exact List.mem_append.mpr (Or.inr (by simp))

/-- Error tally of one iteration: it counts exactly the read failures. -/
theorem processFile_error (st : RunState) (d : String) :
    (processFile dcmread OUT MODALITY BODYPART st d).error_count =
      if (dcmread d).isNone then st.error_count + 1 else st.error_count := by
  rcases hdd : dcmread d with _ | ds
  · simp [processFile, hdd]
  · by_cases h1 : ds.Modality = MODALITY ∧ ds.BodyPartExamined = BODYPART
    · by_cases h2 : OUT ++ ds.SeriesInstanceUID ∈ st.fs.outDirs
      · simp [processFile, hdd, h1, h2]
      · simp [processFile, hdd, h1, h2]
    · simp [processFile, hdd, h1]

/-- The organized-file counter grows in lockstep with the moved-file
list. -/
theorem processFile_counter_moved (st : RunState) (d : String) :
    (processFile dcmread OUT MODALITY BODYPART st d).counter + st.fs.moved.length =
      st.counter + (processFile dcmread OUT MODALITY BODYPART st d).fs.moved.length := by
  rcases hdd : dcmread d with _ | ds
  · simp [processFile, hdd]
  · by_cases h1 : ds.Modality = MODALITY ∧ ds.BodyPartExamined = BODYPART
    · by_cases h2 : OUT ++ ds.SeriesInstanceUID ∈ st.fs.outDirs
      · simp only [processFile, hdd, if_pos h1, if_pos h2, List.length_append,
          List.length_singleton]
        omega
      · simp only [processFile, hdd, if_pos h1, if_neg h2, List.length_append,
          List.length_singleton]
        omega
    · simp [processFile, hdd, h1]

/-- One iteration keeps the output-directory list duplicate-free and the
unique-series counter grows in lockstep with it: the counter is bumped
exactly when a series directory is created, the first time it is needed. -/
theorem processFile_outDirs_count (st : RunState) (d : String)
    (hnd : st.fs.outDirs.Nodup) :
    (processFile dcmread OUT MODALITY BODYPART st d).fs.outDirs.Nodup ∧
      (processFile dcmread OUT MODALITY BODYPART st d).UID_count + st.fs.outDirs.length =
        st.UID_count + (processFile dcmread OUT MODALITY BODYPART st d).fs.outDirs.length := by
  rcases hdd : dcmread d with _ | ds
  · simp [processFile, hdd, hnd]
  · by_cases h1 : ds.Modality = MODALITY ∧ ds.BodyPartExamined = BODYPART
    · by_cases h2 : OUT ++ ds.SeriesInstanceUID ∈ st.fs.outDirs
      · simp [processFile, hdd, h1, h2, hnd]
      · simp only [processFile, hdd, if_pos h1, if_neg h2]
        constructor
        · simp [List.nodup_append, hnd, h2]
        · simp only [List.length_append, List.length_singleton]
          omega
    · simp [processFile, hdd, h1, hnd]

/-! ### Lemmas about the whole per-file loop (a left fold of `processFile`) -/

/-- Over a whole run, `pydicom.dcmread` is called on exactly the candidate
list, in order. -/
theorem foldl_reads (l : List String) (st : RunState) :
    (l.foldl (processFile dcmread OUT MODALITY BODYPART) st).reads = st.reads ++ l := by
  induction l generalizing st with
  | nil => simp
  | cons d t ih =>
    rw [List.foldl_cons, ih, processFile_reads]
    simp

/-- The loop only ever removes entries from the source listing. -/
theorem foldl_srcFiles_sub (l : List String) (st : RunState) (x : String)
    (hx : x ∈ (l.foldl (processFile dcmread OUT MODALITY BODYPART) st).fs.srcFiles) :
    x ∈ st.fs.srcFiles := by
  induction l generalizing st with
  | nil => exact hx
  | cons d t ih =>
    rw [List.foldl_cons] at hx
    exact processFile_srcFiles_sub dcmread OUT MODALITY BODYPART st d x (ih _ hx)

/-- A file the loop never processes stays in the source directory. -/
theorem foldl_srcFiles_other (l : List String) (st : RunState) (x : String)
    (hnl : x ∉ l) (hx : x ∈ st.fs.srcFiles) :
    x ∈ (l.foldl (processFile dcmread OUT MODALITY BODYPART) st).fs.srcFiles := by
  induction l generalizing st with
  | nil => exact hx
  | cons d t ih =>
    rw [List.foldl_cons]
    have hxd : x ≠ d := fun h => hnl (h ▸ List.mem_cons_self d t)
    exact ih _ (fun h => hnl (List.mem_cons_of_mem d h))
      (processFile_srcFiles_other dcmread OUT MODALITY BODYPART st d x hxd hx)

/-- A file whose metadata does not match the filters stays in the source
directory for the whole run. -/
theorem foldl_srcFiles_nonmatching (l : List String) (st : RunState) (x : String)
    (hnm : ∀ m, dcmread x = some m →
      ¬(m.Modality = MODALITY ∧ m.BodyPartExamined = BODYPART))
    (hx : x ∈ st.fs.srcFiles) :
    x ∈ (l.foldl (processFile dcmread OUT MODALITY BODYPART) st).fs.srcFiles := by
  induction l generalizing st with
  | nil => exact hx
  | cons d t ih =>
    rw [List.foldl_cons]
    exact ih _ (processFile_srcFiles_nonmatching dcmread OUT MODALITY BODYPART st d x hnm hx)

/-- Files already under the output tree stay there for the whole run. -/
theorem foldl_moved_mono (l : List String) (st : RunState) (p : String × String)
    (hp : p ∈ st.fs.moved) :
    p ∈ (l.foldl (processFile dcmread OUT MODALITY BODYPART) st).fs.moved := by
  induction l generalizing st with
  | nil => exact hp
  | cons d t ih =>
    rw [List.foldl_cons]
    exact ih _ (processFile_moved_mono dcmread OUT MODALITY BODYPART st d p hp)

/-- Existing output directories persist for the whole run. -/
theorem foldl_outDirs_mono (l : List String) (st : RunState) (dir : String)
    (hdir : dir ∈ st.fs.outDirs) :
    dir ∈ (l.foldl (processFile dcmread OUT MODALITY BODYPART) st).fs.outDirs := by
  induction l generalizing st with
  | nil => exact hdir
  | cons d t ih =>
    rw [List.foldl_cons]
    exact ih _ (processFile_outDirs_mono dcmread OUT MODALITY BODYPART st d dir hdir)

/-- Any file the loop newly places under the output tree is one of the
processed candidates, its destination directory exists at the end of the
run, and the destination is `OUT ++ SeriesInstanceUID` for its
(filter-matching) metadata. -/
theorem foldl_moved_inv (l : List String) (st : RunState) (p : String × String)
    (hp : p ∈ (l.foldl (processFile dcmread OUT MODALITY BODYPART) st).fs.moved) :
    p ∈ st.fs.moved ∨
      (p.2 ∈ l ∧ p.1 ∈ (l.foldl (processFile dcmread OUT MODALITY BODYPART) st).fs.outDirs ∧
        ∃ m, dcmread p.2 = some m ∧ m.Modality = MODALITY ∧
          m.BodyPartExamined = BODYPART ∧ p.1 = OUT ++ m.SeriesInstanceUID) := by
  induction l generalizing st with
  | nil => exact Or.inl hp
  | cons d t ih =>
    rw [List.foldl_cons] at hp ⊢
    rcases ih _ hp with h | ⟨h2, h3, h4⟩
    · rcases processFile_moved_inv dcmread OUT MODALITY BODYPART st d p h with h' | ⟨h2', h3', h4'⟩
      · exact Or.inl h'
      · refine Or.inr ⟨h2' ▸ List.mem_cons_self d t, ?_, h2' ▸ h4'⟩
        exact foldl_outDirs_mono dcmread OUT MODALITY BODYPART t _ _ h3'
    · exact Or.inr ⟨List.mem_cons_of_mem d h2, h3, h4⟩

/-- Every candidate whose metadata reads successfully and matches the
filters ends the run under `OUT ++ SeriesInstanceUID`, with its filename
unchanged. -/
theorem foldl_moved_of_matching (l : List String) (st : RunState) (f : String) (m : Dataset)
    (hf : f ∈ l) (hm : dcmread f = some m) (h1 : m.Modality = MODALITY)
    (h2 : m.BodyPartExamined = BODYPART) :
    (OUT ++ m.SeriesInstanceUID, f) ∈
      (l.foldl (processFile dcmread OUT MODALITY BODYPART) st).fs.moved := by
  induction l generalizing st with
  | nil => cases hf
  | cons d t ih =>
    rw [List.foldl_cons]
    rcases List.mem_cons.mp hf with rfl | hft
    · exact foldl_moved_mono dcmread OUT MODALITY BODYPART t _ _
        (processFile_moves_matching dcmread OUT MODALITY BODYPART st f m hm h1 h2)
    · exact ih _ hft

/-- For every candidate whose metadata reads successfully and matches the
filters, the series directory `OUT ++ SeriesInstanceUID` exists at the end
of the run (created the first time it was needed). -/
theorem foldl_dir_of_matching (l : List String) (st : RunState) (f : String) (m : Dataset)
    (hf : f ∈ l) (hm : dcmread f = some m) (h1 : m.Modality = MODALITY)
    (h2 : m.BodyPartExamined = BODYPART) :
    OUT ++ m.SeriesInstanceUID ∈
      (l.foldl (processFile dcmread OUT MODALITY BODYPART) st).fs.outDirs := by
  induction l generalizing st with
  | nil => cases hf
  | cons d t ih =>
    rw [List.foldl_cons]
    rcases List.mem_cons.mp hf with rfl | hft
    · exact foldl_outDirs_mono dcmread OUT MODALITY BODYPART t _ _
        (processFile_dir_exists dcmread OUT MODALITY BODYPART st f m hm h1 h2)
    · exact ih _ hft

/-- The loop's error tally counts exactly the candidates whose metadata
read fails. -/
theorem foldl_error (l : List String) (st : RunState) :
    (l.foldl (processFile dcmread OUT MODALITY BODYPART) st).error_count =
      st.error_count + (l.filter fun d => (dcmread d).isNone).length := by
  induction l generalizing st with
  | nil => simp
  | cons d t ih =>
    rw [List.foldl_cons, ih, processFile_error]
    by_cases hd : (dcmread d).isNone
    · simp [hd, List.filter_cons]
      omega
    · simp [hd, List.filter_cons]

/-- Over a whole run, the organized-file counter grows in lockstep with
the moved-file list. -/
theorem foldl_counter_moved (l : List String) (st : RunState) :
    (l.foldl (processFile dcmread OUT MODALITY BODYPART) st).counter + st.fs.moved.length =
      st.counter + (l.foldl (processFile dcmread OUT MODALITY BODYPART) st).fs.moved.length := by
  induction l generalizing st with
  | nil => rfl
  | cons d t ih =>
    rw [List.foldl_cons]
    have h1 := ih (processFile dcmread OUT MODALITY BODYPART st d)
    have h2 := processFile_counter_moved dcmread OUT MODALITY BODYPART st d
    omega

/-- Over a whole run the output-directory list stays duplicate-free and the
unique-series counter equals the number of directories created. -/
theorem foldl_outDirs_count (l : List String) (st : RunState)
    (hnd : st.fs.outDirs.Nodup) :
    (l.foldl (processFile dcmread OUT MODALITY BODYPART) st).fs.outDirs.Nodup ∧
      (l.foldl (processFile dcmread OUT MODALITY BODYPART) st).UID_count +
          st.fs.outDirs.length =
        st.UID_count +
          (l.foldl (processFile dcmread OUT MODALITY BODYPART) st).fs.outDirs.length := by
  induction l generalizing st with
  | nil => exact ⟨hnd, rfl⟩
  | cons d t ih =>
    rw [List.foldl_cons]
    have hstep := processFile_outDirs_count dcmread OUT MODALITY BODYPART st d hnd
    have hrest := ih (processFile dcmread OUT MODALITY BODYPART st d) hstep.1
    refine ⟨hrest.1, ?_⟩
    have h2 := hstep.2
    have h3 := hrest.2
    omega

/-! ### Projections of `organizer` and small helpers -/

variable (processed : Finset String) (fs0 : FS)

theorem organizer_input_dcms_def :
    (organizer dcmread OUT MODALITY BODYPART processed fs0).input_dcms =
      fs0.srcFiles.filter fun x => decide (x ∉ processed) := rfl

theorem organizer_fs_def :
    (organizer dcmread OUT MODALITY BODYPART processed fs0).fs =
      ((fs0.srcFiles.filter fun x => decide (x ∉ processed)).foldl
        (processFile dcmread OUT MODALITY BODYPART)
        { fs := fs0, counter := 0, error_count := 0, UID_count := 0, reads := [] }).fs := rfl

theorem organizer_counter_def :
    (organizer dcmread OUT MODALITY BODYPART processed fs0).counter =
      ((fs0.srcFiles.filter fun x => decide (x ∉ processed)).foldl
        (processFile dcmread OUT MODALITY BODYPART)
        { fs := fs0, counter := 0, error_count := 0, UID_count := 0, reads := [] }).counter := rfl

theorem organizer_error_def :
    (organizer dcmread OUT MODALITY BODYPART processed fs0).error_count =
      ((fs0.srcFiles.filter fun x => decide (x ∉ processed)).foldl
        (processFile dcmread OUT MODALITY BODYPART)
        { fs := fs0, counter := 0, error_count := 0, UID_count := 0, reads := [] }).error_count := rfl

theorem organizer_UID_def :
    (organizer dcmread OUT MODALITY BODYPART processed fs0).UID_count =
      ((fs0.srcFiles.filter fun x => decide (x ∉ processed)).foldl
        (processFile dcmread OUT MODALITY BODYPART)
        { fs := fs0, counter := 0, error_count := 0, UID_count := 0, reads := [] }).UID_count := rfl

theorem organizer_reads_def :
    (organizer dcmread OUT MODALITY BODYPART processed fs0).reads =
      ((fs0.srcFiles.filter fun x => decide (x ∉ processed)).foldl
        (processFile dcmread OUT MODALITY BODYPART)
        { fs := fs0, counter := 0, error_count := 0, UID_count := 0, reads := [] }).reads := rfl

/-- A run whose source listing is wholly covered by the ledger does
nothing: no candidates, no reads, no moves, no errors. -/
theorem organizer_run_on_seen (processed' : Finset String) (fs1 : FS)
    (h : ∀ x ∈ fs1.srcFiles, x ∈ processed') :
    organizer dcmread OUT MODALITY BODYPART processed' fs1 =
      { input_dcms := [], counter := 0, error_count := 0,
        totalFiles := fs1.srcFiles.length, UID_count := 0, fs := fs1, reads := [] } := by
  have hfilter : fs1.srcFiles.filter (fun x => !decide (x ∈ processed')) = [] :=
    List.filter_eq_nil_iff.mpr (by intro x hx; simp [h x hx])
  simp [organizer, hfilter]

end OrganizerLemmas

/-- String concatenation on a fixed left part is injective: two output
paths `OUT ++ u` and `OUT ++ v` coincide exactly when `u = v`. -/
theorem string_append_cancel_left (a u v : String) (h : a ++ u = a ++ v) : u = v := by
  have hd := congrArg String.data h
  rw [String.data_append, String.data_append] at hd
  exact String.ext (List.append_cancel_left hd)

/-! ### The claims about the organizer -/

/-- Claim C1: running the organizer a second time on the same source and
output directories, with the ledger updated from the first run
(`processed_dcms.update(input_dcms)`) and no new files added between runs,
organizes zero additional files: the second run has no candidates at all,
moves nothing, errors on nothing, creates no series directory, and leaves
the filesystem exactly as the first run left it. -/
theorem organizer_idempotent (dcmread : String → Option Dataset)
    (OUT MODALITY BODYPART : String) (processed : Finset String) (fs0 : FS) :
    (organizer dcmread OUT MODALITY BODYPART
      (processed ∪ (organizer dcmread OUT MODALITY BODYPART processed fs0).input_dcms.toFinset)
      (organizer dcmread OUT MODALITY BODYPART processed fs0).fs) =
      { input_dcms := [], counter := 0, error_count := 0,
        totalFiles := (organizer dcmread OUT MODALITY BODYPART processed fs0).fs.srcFiles.length,
        UID_count := 0,
        fs := (organizer dcmread OUT MODALITY BODYPART processed fs0).fs, reads := [] } := by
  apply organizer_run_on_seen
  intro x hx
  have hx0 : x ∈ fs0.srcFiles := by
    rw [organizer_fs_def] at hx
    exact foldl_srcFiles_sub dcmread OUT MODALITY BODYPART _ _ x hx
  by_cases hxp : x ∈ processed
  · exact Finset.mem_union_left _ hxp
  · refine Finset.mem_union_right _ (List.mem_toFinset.mpr ?_)
    rw [organizer_input_dcms_def]
    exact List.mem_filter.mpr ⟨hx0, by simpa using hxp⟩

/-- Claim C2: in a single run (started with nothing yet under the output
base), every moved file with metadata `mp` lands in the directory
`OUT ++ mp.SeriesInstanceUID`, and two moved files land in the same
destination subdirectory exactly when their metadata carry the same
`SeriesInstanceUID`. -/
theorem organizer_series_grouping (dcmread : String → Option Dataset)
    (OUT MODALITY BODYPART : String) (processed : Finset String) (fs0 : FS)
    (h0 : fs0.moved = []) (p q : String × String)
    (hp : p ∈ (organizer dcmread OUT MODALITY BODYPART processed fs0).fs.moved)
    (hq : q ∈ (organizer dcmread OUT MODALITY BODYPART processed fs0).fs.moved)
    (mp mq : Dataset) (hmp : dcmread p.2 = some mp) (hmq : dcmread q.2 = some mq) :
    p.1 = OUT ++ mp.SeriesInstanceUID ∧
      (p.1 = q.1 ↔ mp.SeriesInstanceUID = mq.SeriesInstanceUID) := by
  rw [organizer_fs_def] at hp hq
  have hdp : p.1 = OUT ++ mp.SeriesInstanceUID := by
    rcases foldl_moved_inv dcmread OUT MODALITY BODYPART _ _ p hp with h | ⟨_, _, m, hm, _, _, hd⟩
    · simp [h0] at h
    · rw [hmp] at hm
      injection hm with hm
      rw [hd, hm]
  have hdq : q.1 = OUT ++ mq.SeriesInstanceUID := by
    rcases foldl_moved_inv dcmread OUT MODALITY BODYPART _ _ q hq with h | ⟨_, _, m, hm, _, _, hd⟩
    · simp [h0] at h
    · rw [hmq] at hm
      injection hm with hm
      rw [hd, hm]
  refine ⟨hdp, ?_, ?_⟩
  · intro h
    rw [hdp, hdq] at h
    exact string_append_cancel_left OUT _ _ h
  · intro h
    rw [hdp, hdq, h]

/-- Claim C4: with an empty ledger, the organizer's error count equals
exactly the number of corrupt (unreadable) files in the source directory,
and no corrupt file prevents any other valid, filter-matching file from
being organized into its series directory. -/
theorem organizer_error_isolation (dcmread : String → Option Dataset)
    (OUT MODALITY BODYPART : String) (fs0 : FS) :
    (organizer dcmread OUT MODALITY BODYPART ∅ fs0).error_count =
      (fs0.srcFiles.filter fun f => (dcmread f).isNone).length ∧
    ∀ f ∈ fs0.srcFiles, ∀ m, dcmread f = some m → m.Modality = MODALITY →
      m.BodyPartExamined = BODYPART →
      (OUT ++ m.SeriesInstanceUID, f) ∈
        (organizer dcmread OUT MODALITY BODYPART ∅ fs0).fs.moved := by
  have hfilter : fs0.srcFiles.filter (fun x => decide (x ∉ (∅ : Finset String))) =
      fs0.srcFiles := by
    simp
  constructor
  · rw [organizer_error_def, hfilter, foldl_error]
    simp
  · intro f hf m hm h1 h2
    rw [organizer_fs_def, hfilter]
    exact foldl_moved_of_matching dcmread OUT MODALITY BODYPART _ _ f m hf hm h1 h2

/-- Claim C5: a readable file whose modality or body part does not match
the configured filters (exact string equality) survives the run in the
source directory, is never placed under the output tree (and the organized
counter counts only files placed there), yet is part of the returned
`input_dcms` seen-list that the caller merges into the ledger. -/
theorem organizer_nonmatching_untouched (dcmread : String → Option Dataset)
    (OUT MODALITY BODYPART : String) (processed : Finset String) (fs0 : FS)
    (f : String) (m : Dataset)
    (h0 : fs0.moved = []) (hf : f ∈ fs0.srcFiles) (hl : f ∉ processed)
    (hr : dcmread f = some m)
    (hnm : ¬(m.Modality = MODALITY ∧ m.BodyPartExamined = BODYPART)) :
    f ∈ (organizer dcmread OUT MODALITY BODYPART processed fs0).input_dcms ∧
    f ∈ (organizer dcmread OUT MODALITY BODYPART processed fs0).fs.srcFiles ∧
    (∀ d, (d, f) ∉ (organizer dcmread OUT MODALITY BODYPART processed fs0).fs.moved) ∧
    (organizer dcmread OUT MODALITY BODYPART processed fs0).counter =
      (organizer dcmread OUT MODALITY BODYPART processed fs0).fs.moved.length := by
  have hnm' : ∀ m', dcmread f = some m' →
      ¬(m'.Modality = MODALITY ∧ m'.BodyPartExamined = BODYPART) := by
    intro m' hm'
    rw [hr] at hm'
    injection hm' with hm'
    subst hm'
    exact hnm
  refine ⟨?_, ?_, ?_, ?_⟩
  · rw [organizer_input_dcms_def]
    exact List.mem_filter.mpr ⟨hf, by simpa using hl⟩
  · rw [organizer_fs_def]
    exact foldl_srcFiles_nonmatching dcmread OUT MODALITY BODYPART _ _ f hnm' hf
  · intro d hd
    rw [organizer_fs_def] at hd
    rcases foldl_moved_inv dcmread OUT MODALITY BODYPART _ _ (d, f) hd with
      h | ⟨_, _, m', hm', h1, h2, _⟩
    · simp [h0] at h
    · exact hnm' m' hm' ⟨h1, h2⟩
  · rw [organizer_counter_def, organizer_fs_def]
    have hcm := foldl_counter_moved dcmread OUT MODALITY BODYPART
      (fs0.srcFiles.filter fun x => decide (x ∉ processed))
      { fs := fs0, counter := 0, error_count := 0, UID_count := 0, reads := [] }
    simpa [h0] using hcm

/-- Claim C8: every candidate that reads successfully and matches the
filters is moved, filename preserved, into the destination
`outputBase ++ SeriesInstanceUID`, and that directory exists after the run
(created if it was absent); conversely every file moved this run went to
`outputBase ++ SeriesInstanceUID` for its metadata; and the unique-series
counter counts exactly the series directories created this run — once per
series, the first time it is needed (directories that already existed are
never re-counted, and the directory list stays duplicate-free). -/
theorem organizer_series_dirs (dcmread : String → Option Dataset)
    (OUT MODALITY BODYPART : String) (processed : Finset String) (fs0 : FS)
    (hnd : fs0.outDirs.Nodup) :
    (∀ f ∈ fs0.srcFiles, f ∉ processed → ∀ m, dcmread f = some m →
      m.Modality = MODALITY → m.BodyPartExamined = BODYPART →
      (OUT ++ m.SeriesInstanceUID, f) ∈
          (organizer dcmread OUT MODALITY BODYPART processed fs0).fs.moved ∧
        OUT ++ m.SeriesInstanceUID ∈
          (organizer dcmread OUT MODALITY BODYPART processed fs0).fs.outDirs) ∧
    (organizer dcmread OUT MODALITY BODYPART processed fs0).fs.outDirs.Nodup ∧
    (organizer dcmread OUT MODALITY BODYPART processed fs0).UID_count +
        fs0.outDirs.length =
      (organizer dcmread OUT MODALITY BODYPART processed fs0).fs.outDirs.length ∧
    (∀ dir ∈ fs0.outDirs,
      dir ∈ (organizer dcmread OUT MODALITY BODYPART processed fs0).fs.outDirs) ∧
    ∀ p ∈ (organizer dcmread OUT MODALITY BODYPART processed fs0).fs.moved,
      p ∈ fs0.moved ∨
        (p.1 ∈ (organizer dcmread OUT MODALITY BODYPART processed fs0).fs.outDirs ∧
          ∃ m, dcmread p.2 = some m ∧ m.Modality = MODALITY ∧
            m.BodyPartExamined = BODYPART ∧ p = (OUT ++ m.SeriesInstanceUID, p.2)) := by
  have hcount := foldl_outDirs_count dcmread OUT MODALITY BODYPART
    (fs0.srcFiles.filter fun x => decide (x ∉ processed))
    { fs := fs0, counter := 0, error_count := 0, UID_count := 0, reads := [] } hnd
  refine ⟨?_, ?_, ?_, ?_, ?_⟩
  · intro f hf hfp m hm h1 h2
    have hcand : f ∈ fs0.srcFiles.filter (fun x => decide (x ∉ processed)) :=
      List.mem_filter.mpr ⟨hf, by simpa using hfp⟩
    constructor
    · rw [organizer_fs_def]
      exact foldl_moved_of_matching dcmread OUT MODALITY BODYPART _ _ f m hcand hm h1 h2
    · rw [organizer_fs_def]
      exact foldl_dir_of_matching dcmread OUT MODALITY BODYPART _ _ f m hcand hm h1 h2
  · rw [organizer_fs_def]
    exact hcount.1
  · rw [organizer_UID_def, organizer_fs_def]
    simpa using hcount.2
  · intro dir hdir
    rw [organizer_fs_def]
    exact foldl_outDirs_mono dcmread OUT MODALITY BODYPART _ _ dir hdir
  · intro p hp
    rw [organizer_fs_def] at hp ⊢
    rcases foldl_moved_inv dcmread OUT MODALITY BODYPART _ _ p hp with
      h | ⟨_, hdirmem, m, hm, h1, h2, hd⟩
    · exact Or.inl h
    · exact Or.inr ⟨hdirmem, m, hm, h1, h2, Prod.ext_iff.mpr ⟨hd, rfl⟩⟩

/-- Claim C10: the ledger holds bare filenames, so the organizer excludes
any source entry whose name is in the ledger before ever reading it: the
name is not among the candidates, is never passed to `pydicom.dcmread`,
stays in the source directory, and is never moved.  The statement
quantifies over the metadata environment `dcmread` and the filesystem, so
it applies verbatim to a different file of the same name in a different
source subdirectory (subdirs mode) or in a later run. -/
theorem organizer_skips_ledgered_names (dcmread : String → Option Dataset)
    (OUT MODALITY BODYPART : String) (processed : Finset String) (fs0 : FS)
    (f : String) (hf : f ∈ processed) :
    f ∉ (organizer dcmread OUT MODALITY BODYPART processed fs0).input_dcms ∧
    f ∉ (organizer dcmread OUT MODALITY BODYPART processed fs0).reads ∧
    (f ∈ fs0.srcFiles →
      f ∈ (organizer dcmread OUT MODALITY BODYPART processed fs0).fs.srcFiles) ∧
    ∀ d, (d, f) ∈ (organizer dcmread OUT MODALITY BODYPART processed fs0).fs.moved →
      (d, f) ∈ fs0.moved := by
  have hnotc : f ∉ fs0.srcFiles.filter (fun x => decide (x ∉ processed)) := by
    intro hmem
    exact absurd hf (by simpa using (List.mem_filter.mp hmem).2)
  refine ⟨?_, ?_, ?_, ?_⟩
  · rw [organizer_input_dcms_def]
    exact hnotc
  · rw [organizer_reads_def, foldl_reads]
    simpa using hnotc
  · intro hsrc
    rw [organizer_fs_def]
    exact foldl_srcFiles_other dcmread OUT MODALITY BODYPART _ _ f hnotc hsrc
  · intro d hd
    rw [organizer_fs_def] at hd
    rcases foldl_moved_inv dcmread OUT MODALITY BODYPART _ _ (d, f) hd with
      h | ⟨hmem, _, _⟩
    · exact h
    · exact absurd hmem hnotc

/-! ### The claims about the ledger -/

/-- Claim C6: loading the processed-file ledger yields the empty set when
the backing store is missing or malformed; `loadLedger` is total, so the
condition is swallowed (the bare `except:` of lines 85-86), never surfaced
as an error. -/
theorem loadLedger_failure_empty :
    loadLedger .missing = ∅ ∧ loadLedger .corrupt = ∅ :=
  ⟨rfl, rfl⟩

/-- Claim C7: saving the ledger immediately after loading it — with no run
in between — leaves the persisted set of filenames unchanged (element
order in the backing file is not significant; an absent or corrupt store
persists the empty set, and that is what the save writes back). -/
theorem ledger_round_trip (store : LedgerStore) :
    persistedNames (saveLedger (loadLedger store)) = persistedNames store := by
  cases store with
  | missing => simp [loadLedger, saveLedger, persistedNames]
  | corrupt => simp [loadLedger, saveLedger, persistedNames]
  | valid ns => simp [loadLedger, saveLedger, persistedNames]

/-! ### The claim about skull extraction -/

/-- `np_argmax` never returns an index for the empty list and always
returns one for a non-empty list. -/
theorem np_argmax_eq_none (l : List Nat) : np_argmax l = none ↔ l = [] := by
  cases l with
  | nil => simp [np_argmax]
  | cons x xs =>
    simp only [np_argmax]
    rcases h : np_argmax xs with _ | ⟨j, v⟩
    · simp
    · by_cases hle : v ≤ x <;> simp [hle]

/-- `np_argmax` returns a position of the list and the value there is an
upper bound of the whole list. -/
theorem np_argmax_some (l : List Nat) (j v : Nat) (h : np_argmax l = some (j, v)) :
    l.get? j = some v ∧ ∀ x ∈ l, x ≤ v := by
  induction l generalizing j v with
  | nil => simp [np_argmax] at h
  | cons x xs ih =>
    simp only [np_argmax] at h
    split at h
    · rename_i heq
      simp only [Option.some.injEq, Prod.mk.injEq] at h
      obtain ⟨rfl, rfl⟩ := h
      have hnil : xs = [] := (np_argmax_eq_none xs).mp heq
      subst hnil
      simp
    · rename_i j' v' heq
      split at h
      · rename_i hle
        simp only [Option.some.injEq, Prod.mk.injEq] at h
        obtain ⟨rfl, rfl⟩ := h
        refine ⟨rfl, ?_⟩
        intro y hy
        rcases List.mem_cons.mp hy with rfl | hy'
        · exact le_refl _
        · exact le_trans ((ih j' v' heq).2 y hy') hle
      · rename_i hle
        simp only [Option.some.injEq, Prod.mk.injEq] at h
        obtain ⟨rfl, rfl⟩ := h
        refine ⟨?_, ?_⟩
        · simpa using (ih j' v' heq).1
        · intro y hy
          rcases List.mem_cons.mp hy with rfl | hy'
          · omega
          · exact (ih j' v' heq).2 y hy'

/-- Claim C9: for every non-empty component split, skull extraction
exports to `outputfolder/stl_file` exactly a component of the split that
has the greatest number of faces among all components. -/
theorem skull_extraction_keeps_largest (splitted_mesh : List TMesh)
    (stl_file outputfolder : String) (h : splitted_mesh ≠ []) :
    ∃ skull, skull_extraction splitted_mesh stl_file outputfolder =
        some (outputfolder ++ "/" ++ stl_file, skull) ∧
      skull ∈ splitted_mesh ∧
      ∀ c ∈ splitted_mesh, c.faces.length ≤ skull.faces.length := by
  rcases hargmax : np_argmax (splitted_mesh.map fun x => x.faces.length) with _ | ⟨j, v⟩
  · exact absurd (by simpa using (np_argmax_eq_none _).mp hargmax) h
  · obtain ⟨hget, hmax⟩ := np_argmax_some _ j v hargmax
    rw [List.get?_map] at hget
    rcases hsk : splitted_mesh.get? j with _ | skull
    · rw [hsk] at hget
      exact absurd hget (by simp)
    · rw [hsk] at hget
      simp only [Option.map_some', Option.some.injEq] at hget
      refine ⟨skull, ?_, List.get?_mem hsk, ?_⟩
      · simp only [skull_extraction, hargmax]
        rw [hsk]
        simp
      · intro c hc
        have hcv : c.faces.length ∈ splitted_mesh.map (fun x => x.faces.length) :=
          List.mem_map.mpr ⟨c, hc, rfl⟩
        rw [hget]
        exact hmax _ hcv

/-! ### The claim about argument-parsing failure -/

/-- Counterexample to claim C3 as stated: on the unrecognised option
`-x`, parsing fails, yet the process exits with status 0 (not non-zero),
and the filesystem has already been touched — the logs directory was
created and the per-run log file opened for writing. -/
theorem main_parse_failure_counterexample :
    (∃ e, getopt ["-x"] = Except.error e) ∧
    (mainParsePhase "." "T" ["-x"] ⟨[], [], []⟩).exitCode = some 0 ∧
    (mainParsePhase "." "T" ["-x"] ⟨[], [], []⟩).world.createdDirs = ["./logs/"] ∧
    (mainParsePhase "." "T" ["-x"] ⟨[], [], []⟩).world.writtenFiles =
      ["./logs/log_dcm-organizer_T.log"] :=
  ⟨⟨"option -x not recognized", rfl⟩, rfl, rfl, rfl⟩

/-- Claim C3 as amended: on any argument-parsing failure `main` prints the
usage text and exits with status 0 (`sys.exit()` with no argument), having
already touched the filesystem — the per-run log file has been opened for
writing inside the logs directory, which was created if absent. -/
theorem main_parse_failure_exits_zero (cwd timestamp : String) (argv : List String)
    (w : MainWorld) (e : String) (h : getopt argv = .error e) :
    (mainParsePhase cwd timestamp argv w).exitCode = some 0 ∧
    (mainParsePhase cwd timestamp argv w).printed = [usage] ∧
    cwd ++ "/logs/" ++ "log_dcm-organizer_" ++ timestamp ++ ".log" ∈
      (mainParsePhase cwd timestamp argv w).world.writtenFiles ∧
    (cwd ++ "/logs/" ∉ w.existingDirs →
      cwd ++ "/logs/" ∈ (mainParsePhase cwd timestamp argv w).world.createdDirs) := by
  unfold mainParsePhase
  rw [h]
  by_cases hd : cwd ++ "/logs/" ∈ w.existingDirs
  · simp [hd]
  · simp [hd]

/-! ### Concrete instances

The metadata environment of the spec's §8 scenario (`a.dcm`/`b.dcm` CT
HEAD in series S1, `c.dcm` MR HEAD in series S2) plus one corrupt file,
used to instantiate the theorems above on closed inputs. -/

/-- Example metadata environment: any other filename is unreadable. -/
def exRead : String → Option Dataset := fun f =>
  if f = "a.dcm" then some ⟨"CT", "HEAD", "S1"⟩
  else if f = "b.dcm" then some ⟨"CT", "HEAD", "S1"⟩
  else if f = "c.dcm" then some ⟨"MR", "HEAD", "S2"⟩
  else none

/-- Example source directory with three readable files and one corrupt
one, an empty output tree. -/
def exFS : FS :=
  { srcFiles := ["a.dcm", "b.dcm", "c.dcm", "bad.dcm"], outDirs := [], moved := [] }

/-- Example component split: two components, the second with more faces. -/
def exMeshes : List TMesh := [⟨[(0, 1, 2)]⟩, ⟨[(0, 1, 2), (1, 2, 3)]⟩]

/-- Witness for C2 at the §8 scenario: `a.dcm` and `b.dcm` are both moved,
and sharing a destination is equivalent to sharing the series UID. -/
theorem organizer_series_grouping_witness :
    ("out/" ++ "S1", "a.dcm") ∈ (organizer exRead "out/" "CT" "HEAD" ∅ exFS).fs.moved ∧
      (("out/" ++ "S1", "a.dcm").1 = ("out/" ++ "S1", "b.dcm").1 ↔
        ("S1" : String) = "S1") := by
  have hp : ("out/" ++ "S1", "a.dcm") ∈
      (organizer exRead "out/" "CT" "HEAD" ∅ exFS).fs.moved := by decide
  have hq : ("out/" ++ "S1", "b.dcm") ∈
      (organizer exRead "out/" "CT" "HEAD" ∅ exFS).fs.moved := by decide
  exact ⟨hp, (organizer_series_grouping exRead "out/" "CT" "HEAD" ∅ exFS rfl _ _ hp hq
    ⟨"CT", "HEAD", "S1"⟩ ⟨"CT", "HEAD", "S1"⟩ rfl rfl).2⟩

/-- Witness for the amended C3 at the failing argv `["--bad"]`. -/
theorem main_parse_failure_exits_zero_witness :
    (mainParsePhase "." "T2" ["--bad"] ⟨[], [], []⟩).exitCode = some 0 :=
  (main_parse_failure_exits_zero "." "T2" ["--bad"] ⟨[], [], []⟩
    "option --bad not recognized" rfl).1

/-- Witness for C4 at the §8 scenario plus one corrupt file: exactly one
error, and the corrupt file does not keep `a.dcm` from being organized. -/
theorem organizer_error_isolation_witness :
    (organizer exRead "out/" "CT" "HEAD" ∅ exFS).error_count = 1 ∧
    ("out/" ++ "S1", "a.dcm") ∈ (organizer exRead "out/" "CT" "HEAD" ∅ exFS).fs.moved := by
  constructor
  · rw [(organizer_error_isolation exRead "out/" "CT" "HEAD" exFS).1]
    decide
  · exact (organizer_error_isolation exRead "out/" "CT" "HEAD" exFS).2 "a.dcm" (by decide)
      ⟨"CT", "HEAD", "S1"⟩ rfl rfl rfl

/-- Witness for C5 at the §8 scenario: the MR file `c.dcm` stays a
candidate and stays in the source directory. -/
theorem organizer_nonmatching_untouched_witness :
    "c.dcm" ∈ (organizer exRead "out/" "CT" "HEAD" ∅ exFS).input_dcms ∧
    "c.dcm" ∈ (organizer exRead "out/" "CT" "HEAD" ∅ exFS).fs.srcFiles := by
  have h := organizer_nonmatching_untouched exRead "out/" "CT" "HEAD" ∅ exFS "c.dcm"
    ⟨"MR", "HEAD", "S2"⟩ rfl (by decide) (by decide) rfl (by decide)
  exact ⟨h.1, h.2.1⟩

/-- Witness for C8 at the §8 scenario: the matching file `b.dcm` is moved
into `out/S1` and that directory exists after the run; the output
directory list stays duplicate-free and the unique-series counter matches
it. -/
theorem organizer_series_dirs_witness :
    ("out/" ++ "S1", "b.dcm") ∈ (organizer exRead "out/" "CT" "HEAD" ∅ exFS).fs.moved ∧
    "out/" ++ "S1" ∈ (organizer exRead "out/" "CT" "HEAD" ∅ exFS).fs.outDirs ∧
    (organizer exRead "out/" "CT" "HEAD" ∅ exFS).fs.outDirs.Nodup ∧
    (organizer exRead "out/" "CT" "HEAD" ∅ exFS).UID_count + exFS.outDirs.length =
      (organizer exRead "out/" "CT" "HEAD" ∅ exFS).fs.outDirs.length := by
  have h := organizer_series_dirs exRead "out/" "CT" "HEAD" ∅ exFS (by decide)
  have hb := h.1 "b.dcm" (by decide) (by decide) ⟨"CT", "HEAD", "S1"⟩ rfl rfl rfl
  exact ⟨hb.1, hb.2, h.2.1, h.2.2.1⟩

/-- Witness for C9 on a concrete two-component split. -/
theorem skull_extraction_keeps_largest_witness :
    ∃ skull, skull_extraction exMeshes "skull.stl" "out" =
        some ("out" ++ "/" ++ "skull.stl", skull) ∧
      skull ∈ exMeshes ∧
      ∀ c ∈ exMeshes, c.faces.length ≤ skull.faces.length :=
  skull_extraction_keeps_largest exMeshes "skull.stl" "out" (by decide)

/-- Witness for C10: `a.dcm` sits in the ledger, so it is neither a
candidate nor ever read, whatever its on-disk content. -/
theorem organizer_skips_ledgered_names_witness :
    "a.dcm" ∉ (organizer exRead "out/" "CT" "HEAD" {"a.dcm"} exFS).input_dcms ∧
    "a.dcm" ∉ (organizer exRead "out/" "CT" "HEAD" {"a.dcm"} exFS).reads := by
  have h := organizer_skips_ledgered_names exRead "out/" "CT" "HEAD" {"a.dcm"} exFS
    "a.dcm" (by decide)
  exact ⟨h.1, h.2.1⟩

end Dicom2Stl
